import Mathlib

/-!
# Verification of the `rate-gate` per-entity rate limiter

Shallow embedding of `src/lib.rs`. The limiter owns a mutex-guarded
hash map from entity keys to `AssociatedEntity` buckets; every public
operation locks the map, so each call is one atomic step on the map.
We embed the map extensionally as a function `K → Option AssociatedEntity`
and each operation as a pure function from (state, arguments, clock
reading) to (return value, new state). `Instant` and `Duration` become
`Nat`; `now.duration_since(bucket_init)` becomes truncated subtraction
`now - bucket_init`, matching Rust's saturating `duration_since` on a
monotonic clock.
-/

/-- Embeds Rust's `struct AssociatedEntity`: `bucket` is the requests left,
`bucket_init` the instant of the last refill, `bucket_max` the refill value,
`refresh_rate` the window length. `usize`/`Instant`/`Duration` all become
`Nat`. -/
structure AssociatedEntity where
  bucket : Nat
  bucket_init : Nat
  bucket_max : Nat
  refresh_rate : Nat
deriving Repr, DecidableEq

/-- The limiter's map `HashMap<T, AssociatedEntity>`, embedded extensionally
as a partial lookup function. -/
def Limiter (K : Type) : Type := K → Option AssociatedEntity

/-- `Limiter::new`: the empty map. -/
def Limiter.new (K : Type) : Limiter K := fun _ => none

/-- `Limiter::add_limited_entity`: `requests.insert(entity, AssociatedEntity
{ bucket: max_limit, bucket_init: Instant::now(), bucket_max: max_limit,
refresh_rate })`. The clock reading `Instant::now()` is the explicit
parameter `now`. -/
def Limiter.add_limited_entity [DecidableEq K] (l : Limiter K) (entity : K)
    (max_limit : Nat) (refresh_rate : Nat) (now : Nat) : Limiter K :=
  fun k =>
    if k = entity then
      some { bucket := max_limit, bucket_init := now,
             bucket_max := max_limit, refresh_rate := refresh_rate }
    else l k

/-- `Limiter::remove_limited_entity`: `requests.remove(&entity)` — returns
the removed value (or `none`) together with the updated map. -/
def Limiter.remove_limited_entity [DecidableEq K] (l : Limiter K)
    (entity : K) : Option AssociatedEntity × Limiter K :=
  (l entity, fun k => if k = entity then none else l k)

/-- The refill step of `is_entity_limited` (lines 80–83 of `lib.rs`) in
isolation: `if now.duration_since(entry.bucket_init) >= entry.refresh_rate
{ entry.bucket = entry.bucket_max; entry.bucket_init = now; }` — the
bucket after the window-expiry check, before the consume decision. -/
def refillStep (entry : AssociatedEntity) (now : Nat) : AssociatedEntity :=
  if now - entry.bucket_init ≥ entry.refresh_rate then
    { entry with bucket := entry.bucket_max, bucket_init := now }
  else entry

/-- `Limiter::is_entity_limited`: look the entity up; if absent return
`None`.  Otherwise, apply `refillStep`; then if `entry.bucket > 0`
decrement and return `Some(true)`, else return `Some(false)`.  Returns
the decision together with the updated map. -/
def Limiter.is_entity_limited [DecidableEq K] (l : Limiter K) (entity : K)
    (now : Nat) : Option Bool × Limiter K :=
  match l entity with
  | none => (none, l)
  | some entry =>
    let entry1 := refillStep entry now
    if entry1.bucket > 0 then
      (some true,
       fun k => if k = entity then
                  some { entry1 with bucket := entry1.bucket - 1 }
                else l k)
    else
      (some false, fun k => if k = entity then some entry1 else l k)

/-- `Limiter::get_bucket_remaining`: `requests.get(entity).map(|entry|
entry.bucket)`.  Takes `&self`: it has no state output because the Rust
method performs no mutation. -/
def Limiter.get_bucket_remaining (l : Limiter K) (entity : K) :
    Option Nat :=
  (l entity).map (fun entry => entry.bucket)

/-- Runs a sequence of `is_entity_limited` calls on one key, one per clock
reading in the list, collecting the decisions and threading the state. -/
def Limiter.runCalls [DecidableEq K] (l : Limiter K) (entity : K) :
    List Nat → List (Option Bool) × Limiter K
  | [] => ([], l)
  | t :: ts =>
    let step := l.is_entity_limited entity t
    let rest := step.2.runCalls entity ts
    (step.1 :: rest.1, rest.2)

/-- The spec's `check_and_consume` algorithm, written from the spec's own
words (§4.1): look up; absent ⇒ `NotRegistered` (`none`); if `elapsed =
now - window_start ≥ window_length` refill to capacity and restart the
window; if `remaining > 0` decrement and return `Allowed` (`some true`);
else return `Denied` (`some false`) leaving `remaining` unchanged. -/
def check_and_consume_spec [DecidableEq K] (l : Limiter K) (entity : K)
    (now : Nat) : Option Bool × Limiter K :=
  match l entity with
  | none => (none, l)
  | some b =>
    let refilled :=
      if now - b.bucket_init ≥ b.refresh_rate then
        { b with bucket := b.bucket_max, bucket_init := now }
      else b
    if refilled.bucket > 0 then
      (some true,
       fun k => if k = entity then
                  some { refilled with bucket := refilled.bucket - 1 }
                else l k)
    else
      (some false, fun k => if k = entity then some refilled else l k)

/-- The spec's data-model invariant (§3): `0 ≤ remaining ≤ capacity` for
every registered entity.  `0 ≤ remaining` is carried by the `Nat` type,
which embeds Rust's `usize`. -/
def LimiterInv (l : Limiter K) : Prop :=
  ∀ k entry, l k = some entry → entry.bucket ≤ entry.bucket_max

/-- Limiter states reachable through the public API, starting from
`Limiter::new`.  `get_bucket_remaining` takes `&self` and mutates
nothing, so it contributes no step. -/
inductive Reachable [DecidableEq K] : Limiter K → Prop
  | new : Reachable (Limiter.new K)
  | add (l : Limiter K) (e : K) (c w t : Nat) : Reachable l →
      Reachable (l.add_limited_entity e c w t)
  | remove (l : Limiter K) (e : K) : Reachable l →
      Reachable (l.remove_limited_entity e).2
  | check (l : Limiter K) (e : K) (t : Nat) : Reachable l →
      Reachable (l.is_entity_limited e t).2

/-- Helper: a call on one key leaves every other key's bucket untouched. -/
theorem check_apply_ne [DecidableEq K] (l : Limiter K) (e k : K)
    (now : Nat) (hk : k ≠ e) : (l.is_entity_limited e now).2 k = l k := by
  unfold Limiter.is_entity_limited
  cases h : l e with
  | none => rfl
  | some entry =>
    simp only
    split <;> simp [hk]

/-- Helper: a call on an absent key returns `none` and changes nothing. -/
theorem check_absent [DecidableEq K] (l : Limiter K) (e : K) (now : Nat)
    (h : l e = none) : l.is_entity_limited e now = (none, l) := by
  unfold Limiter.is_entity_limited
  rw [h]

/-- **C1.** `is_entity_limited` follows exactly the spec's
`check_and_consume` algorithm: absent key ⇒ `none`; else refill when
`now - window_start ≥ window_length`, then decrement-and-allow when
`remaining > 0`, else deny leaving `remaining` unchanged. -/
theorem is_entity_limited_eq_spec [DecidableEq K] (l : Limiter K)
    (entity : K) (now : Nat) :
    l.is_entity_limited entity now = check_and_consume_spec l entity now :=
  rfl

/-- **C5.** `add_limited_entity` inserts or replaces the key's bucket with
`remaining = capacity`, `window_start = now`, and the given capacity and
window length — full replacement of any prior state — and leaves every
other key untouched.  It is a total function with no error outcome. -/
theorem add_limited_entity_spec [DecidableEq K] (l : Limiter K)
    (entity : K) (c w now : Nat) :
    (l.add_limited_entity entity c w now) entity =
      some { bucket := c, bucket_init := now, bucket_max := c,
             refresh_rate := w } ∧
    ∀ k, k ≠ entity → (l.add_limited_entity entity c w now) k = l k := by
  constructor
  · simp [Limiter.add_limited_entity]
  · intro k hk
    simp [Limiter.add_limited_entity, hk]

/-- Witness for C5: re-registering key `0` (previously capacity 7) at
capacity 3 replaces its bucket wholesale and leaves key `1` alone. -/
theorem add_limited_entity_spec_witness :
    (((Limiter.new Nat).add_limited_entity 0 7 9 4).add_limited_entity
        0 3 5 10) 0 =
      some { bucket := 3, bucket_init := 10, bucket_max := 3,
             refresh_rate := 5 } ∧
    (((Limiter.new Nat).add_limited_entity 0 7 9 4).add_limited_entity
        0 3 5 10) 1 =
      ((Limiter.new Nat).add_limited_entity 0 7 9 4) 1 :=
  ⟨(add_limited_entity_spec _ 0 3 5 10).1,
   (add_limited_entity_spec _ 0 3 5 10).2 1 (by decide)⟩

/-- **C7.** `remove_limited_entity` returns the key's bucket exactly when
it was registered (`none` otherwise), removes it, has no side effect on
any other key, and afterwards `is_entity_limited` on that key returns the
absence signal `none` and leaves the state unchanged — so it keeps
returning `none` until the key is registered again. -/
theorem remove_limited_entity_spec [DecidableEq K] (l : Limiter K)
    (entity : K) (now : Nat) :
    (l.remove_limited_entity entity).1 = l entity ∧
    (l.remove_limited_entity entity).2 entity = none ∧
    (∀ k, k ≠ entity → (l.remove_limited_entity entity).2 k = l k) ∧
    (l.remove_limited_entity entity).2.is_entity_limited entity now =
      (none, (l.remove_limited_entity entity).2) := by
  refine ⟨rfl, ?_, ?_, ?_⟩
  · simp [Limiter.remove_limited_entity]
  · intro k hk
    simp [Limiter.remove_limited_entity, hk]
  · exact check_absent _ _ _ (by simp [Limiter.remove_limited_entity])

/-- Witness for C7: removing key `0` from a limiter holding keys `0` and
`1` yields its bucket, deletes it, spares key `1`, and a later check on
key `0` signals absence. -/
theorem remove_limited_entity_spec_witness :
    ((((Limiter.new Nat).add_limited_entity 0 2 5 0).add_limited_entity
        1 4 6 1).remove_limited_entity 0).1 =
      (((Limiter.new Nat).add_limited_entity 0 2 5 0).add_limited_entity
        1 4 6 1) 0 ∧
    ((((Limiter.new Nat).add_limited_entity 0 2 5 0).add_limited_entity
        1 4 6 1).remove_limited_entity 0).2 0 = none ∧
    ((((Limiter.new Nat).add_limited_entity 0 2 5 0).add_limited_entity
        1 4 6 1).remove_limited_entity 0).2 1 =
      (((Limiter.new Nat).add_limited_entity 0 2 5 0).add_limited_entity
        1 4 6 1) 1 ∧
    ((((Limiter.new Nat).add_limited_entity 0 2 5 0).add_limited_entity
        1 4 6 1).remove_limited_entity 0).2.is_entity_limited 0 7 =
      (none,
       ((((Limiter.new Nat).add_limited_entity 0 2 5 0).add_limited_entity
          1 4 6 1).remove_limited_entity 0).2) :=
  ⟨(remove_limited_entity_spec _ 0 7).1,
   (remove_limited_entity_spec _ 0 7).2.1,
   (remove_limited_entity_spec _ 0 7).2.2.1 1 (by decide),
   (remove_limited_entity_spec _ 0 7).2.2.2⟩

/-- **C8.** `get_bucket_remaining` is a pure read: it returns `none` for
an unregistered key and `some entry.bucket` — the value currently stored,
with no refill applied and no unit consumed — for a registered one.  The
Rust method takes `&self` and only reads the map; accordingly its
embedding has no state output and no clock parameter at all, so the
limiter state is unchanged and the reported value can be the stale
pre-refill count even after the window has elapsed. -/
theorem get_bucket_remaining_spec (l : Limiter K) (entity : K) :
    (l entity = none → l.get_bucket_remaining entity = none) ∧
    ∀ entry, l entity = some entry →
      l.get_bucket_remaining entity = some entry.bucket := by
  constructor
  · intro h
    simp [Limiter.get_bucket_remaining, h]
  · intro entry h
    simp [Limiter.get_bucket_remaining, h]

/-- Witness for C8: on a fresh limiter key `0` reads `none`; after
registration at capacity 2 it reads `some 2` — the stored count. -/
theorem get_bucket_remaining_spec_witness :
    (Limiter.new Nat).get_bucket_remaining 0 = none ∧
    ((Limiter.new Nat).add_limited_entity 0 2 5 0).get_bucket_remaining 0 =
      some 2 :=
  ⟨(get_bucket_remaining_spec (Limiter.new Nat) 0).1 rfl,
   (get_bucket_remaining_spec _ 0).2
     { bucket := 2, bucket_init := 0, bucket_max := 2, refresh_rate := 5 }
     rfl⟩

/-- **C9.** Operations on one key never affect any other key's bucket:
for any key `k` distinct from the operated key `e`, `add_limited_entity`,
`remove_limited_entity` and `is_entity_limited` on `e` leave `l k` —
hence `k`'s remaining, window start, capacity and window length —
unchanged. -/
theorem frame_other_keys [DecidableEq K] (l : Limiter K) (e k : K)
    (c w t now : Nat) (hk : k ≠ e) :
    (l.add_limited_entity e c w t) k = l k ∧
    (l.remove_limited_entity e).2 k = l k ∧
    (l.is_entity_limited e now).2 k = l k := by
  refine ⟨?_, ?_, check_apply_ne l e k now hk⟩
  · simp [Limiter.add_limited_entity, hk]
  · simp [Limiter.remove_limited_entity, hk]

/-- Witness for C9: with keys `0` (capacity 3) and `1` (capacity 5)
registered, operating on key `0` — including a quota-consuming check —
leaves key `1`'s bucket untouched. -/
theorem frame_other_keys_witness :
    ((((Limiter.new Nat).add_limited_entity 1 5 9 0).add_limited_entity
        0 3 7 1) 1 =
      (((Limiter.new Nat).add_limited_entity 1 5 9 0)) 1) ∧
    ((((Limiter.new Nat).add_limited_entity 1 5 9 0).remove_limited_entity
        0).2 1 =
      (((Limiter.new Nat).add_limited_entity 1 5 9 0)) 1) ∧
    ((((Limiter.new Nat).add_limited_entity 1 5 9 0).is_entity_limited
        0 2).2 1 =
      (((Limiter.new Nat).add_limited_entity 1 5 9 0)) 1) :=
  frame_other_keys ((Limiter.new Nat).add_limited_entity 1 5 9 0)
    0 1 3 7 1 2 (by decide)

/-- Helper: updating `bucket` with `bucket - 1` is the identity when the
bucket is empty (truncated subtraction). -/
theorem bucket_sub_one_eq_self (r : AssociatedEntity) (hb : r.bucket = 0) :
    ({ r with bucket := r.bucket - 1 } : AssociatedEntity) = r := by
  cases r with
  | mk b bi bm rr =>
    have hb' : b = 0 := hb
    subst hb'
    rfl

/-- Helper: on a registered key the decision is `Allowed` exactly when the
post-refill bucket is nonempty. -/
theorem check_fst [DecidableEq K] (l : Limiter K) (e : K) (now : Nat)
    (entry : AssociatedEntity) (h : l e = some entry) :
    (l.is_entity_limited e now).1 =
      some (decide (0 < (refillStep entry now).bucket)) := by
  unfold Limiter.is_entity_limited
  rw [h]
  by_cases hpos : 0 < (refillStep entry now).bucket
  · simp [hpos]
  · simp [hpos]

/-- Helper: on a registered key the new stored bucket is the post-refill
bucket with one unit consumed (truncated subtraction makes the `Denied`
branch, where the bucket is `0`, the same formula). -/
theorem check_apply_self [DecidableEq K] (l : Limiter K) (e : K)
    (now : Nat) (entry : AssociatedEntity) (h : l e = some entry) :
    (l.is_entity_limited e now).2 e =
      some { refillStep entry now with
             bucket := (refillStep entry now).bucket - 1 } := by
  unfold Limiter.is_entity_limited
  rw [h]
  by_cases hpos : 0 < (refillStep entry now).bucket
  · simp [hpos]
  · have hb : (refillStep entry now).bucket = 0 :=
      Nat.eq_zero_of_not_pos hpos
    simp [hpos, bucket_sub_one_eq_self _ hb]

/-- **C3.** When at least one full window has elapsed
(`window_length ≤ now - window_start`), the call refills: the post-check
bucket is exactly `{ capacity, window_start := now }` — a value
independent of how many windows elapsed — the decision is `Allowed` iff
`capacity > 0`, and the stored result is that refilled bucket with the
call's own decrement applied. -/
theorem refill_resets_to_capacity [DecidableEq K] (l : Limiter K) (e : K)
    (now : Nat) (entry : AssociatedEntity) (h : l e = some entry)
    (helapsed : entry.refresh_rate ≤ now - entry.bucket_init) :
    refillStep entry now =
      { entry with bucket := entry.bucket_max, bucket_init := now } ∧
    (l.is_entity_limited e now).1 = some (decide (0 < entry.bucket_max)) ∧
    (l.is_entity_limited e now).2 e =
      some { bucket := entry.bucket_max - 1, bucket_init := now,
             bucket_max := entry.bucket_max,
             refresh_rate := entry.refresh_rate } := by
  have hr : refillStep entry now =
      { entry with bucket := entry.bucket_max, bucket_init := now } := by
    unfold refillStep
    rw [if_pos helapsed]
  refine ⟨hr, ?_, ?_⟩
  · rw [check_fst l e now entry h, hr]
  · rw [check_apply_self l e now entry h, hr]

/-- Witness for C3: key `0` registered at time 0 with capacity 2, window
5, checked at time 50 (ten windows later): refilled to capacity 2, the
call is allowed, and the stored bucket is `2 - 1 = 1` with window start
50. -/
theorem refill_resets_to_capacity_witness :
    (refillStep { bucket := 2, bucket_init := 0, bucket_max := 2,
                  refresh_rate := 5 } 50 =
      { bucket := 2, bucket_init := 50, bucket_max := 2,
        refresh_rate := 5 }) ∧
    ((((Limiter.new Nat).add_limited_entity 0 2 5 0).is_entity_limited
        0 50).1 = some (decide (0 < 2))) ∧
    ((((Limiter.new Nat).add_limited_entity 0 2 5 0).is_entity_limited
        0 50).2 0 =
      some { bucket := 1, bucket_init := 50, bucket_max := 2,
             refresh_rate := 5 }) :=
  refill_resets_to_capacity ((Limiter.new Nat).add_limited_entity 0 2 5 0)
    0 50 { bucket := 2, bucket_init := 0, bucket_max := 2,
           refresh_rate := 5 } rfl (by decide)

/-- **C10.** The decrement at line 86 runs only under the guard
`entry.bucket > 0`: whenever a call returns `Allowed`, the post-refill
bucket is positive and the stored `bucket - 1` agrees with exact integer
subtraction — the `usize` subtraction never underflows.  (Totality over
all keys, capacities, window lengths and states is carried by the
operations being total Lean functions.) -/
theorem decrement_no_underflow [DecidableEq K] (l : Limiter K) (e : K)
    (now : Nat) (entry : AssociatedEntity) (h : l e = some entry)
    (hallowed : (l.is_entity_limited e now).1 = some true) :
    0 < (refillStep entry now).bucket ∧
    (l.is_entity_limited e now).2 e =
      some { refillStep entry now with
             bucket := (refillStep entry now).bucket - 1 } ∧
    (((refillStep entry now).bucket - 1 : Nat) : Int) =
      ((refillStep entry now).bucket : Int) - 1 := by
  have hpos : 0 < (refillStep entry now).bucket := by
    by_contra hpos
    rw [check_fst l e now entry h] at hallowed
    simp [Nat.eq_zero_of_not_pos hpos] at hallowed
  refine ⟨hpos, check_apply_self l e now entry h, ?_⟩
  omega

/-- Witness for C10: an allowed call at time 1 on key `0` (capacity 2,
window 5, registered at time 0) has a positive pre-decrement bucket and
its decrement matches integer subtraction. -/
theorem decrement_no_underflow_witness :
    0 < (refillStep { bucket := 2, bucket_init := 0, bucket_max := 2,
                      refresh_rate := 5 } 1).bucket ∧
    ((((Limiter.new Nat).add_limited_entity 0 2 5 0).is_entity_limited
        0 1).2 0 =
      some { refillStep { bucket := 2, bucket_init := 0, bucket_max := 2,
                          refresh_rate := 5 } 1 with
             bucket := (refillStep { bucket := 2, bucket_init := 0,
                                     bucket_max := 2,
                                     refresh_rate := 5 } 1).bucket - 1 }) ∧
    (((refillStep { bucket := 2, bucket_init := 0, bucket_max := 2,
                    refresh_rate := 5 } 1).bucket - 1 : Nat) : Int) =
      ((refillStep { bucket := 2, bucket_init := 0, bucket_max := 2,
                     refresh_rate := 5 } 1).bucket : Int) - 1 :=
  decrement_no_underflow ((Limiter.new Nat).add_limited_entity 0 2 5 0)
    0 1 { bucket := 2, bucket_init := 0, bucket_max := 2,
          refresh_rate := 5 } rfl rfl

/-- Helper: a check on a key whose bucket and capacity are both `0` is
denied and stores a bucket that again has bucket and capacity `0`. -/
theorem check_zero_cap [DecidableEq K] (l : Limiter K) (e : K) (now : Nat)
    (entry : AssociatedEntity) (h : l e = some entry)
    (h0 : entry.bucket = 0) (hm : entry.bucket_max = 0) :
    (l.is_entity_limited e now).1 = some false ∧
    (l.is_entity_limited e now).2 e = some (refillStep entry now) ∧
    (refillStep entry now).bucket = 0 ∧
    (refillStep entry now).bucket_max = 0 := by
  have hb : (refillStep entry now).bucket = 0 := by
    unfold refillStep
    split
    · exact hm
    · exact h0
  have hbm : (refillStep entry now).bucket_max = 0 := by
    unfold refillStep
    split
    · exact hm
    · exact hm
  refine ⟨?_, ?_, hb, hbm⟩
  · rw [check_fst l e now entry h, hb]
    rfl
  · rw [check_apply_self l e now entry h, bucket_sub_one_eq_self _ hb]

/-- Helper: every call in a sequence on a key with bucket and capacity `0`
is denied, whatever the call times. -/
theorem runCalls_zero_cap [DecidableEq K] (ts : List Nat) :
    ∀ (l : Limiter K) (e : K) (entry : AssociatedEntity),
      l e = some entry → entry.bucket = 0 → entry.bucket_max = 0 →
      (l.runCalls e ts).1 = List.replicate ts.length (some false) := by
  induction ts with
  | nil =>
    intro l e entry _ _ _
    rfl
  | cons t ts ih =>
    intro l e entry h h0 hm
    obtain ⟨hf, hs, hb, hbm⟩ := check_zero_cap l e t entry h h0 hm
    show (l.is_entity_limited e t).1 ::
        ((l.is_entity_limited e t).2.runCalls e ts).1 =
      some false :: List.replicate ts.length (some false)
    rw [hf, ih (l.is_entity_limited e t).2 e (refillStep entry t) hs hb hbm]

/-- **C6.** After registering a key with capacity `0`, every subsequent
`is_entity_limited` call on that key — at any sequence of times, however
much time elapses — returns `Denied` (`some false`), never `Allowed`. -/
theorem capacity_zero_denied [DecidableEq K] (l : Limiter K) (e : K)
    (w t0 : Nat) (ts : List Nat) :
    ((l.add_limited_entity e 0 w t0).runCalls e ts).1 =
      List.replicate ts.length (some false) :=
  runCalls_zero_cap ts (l.add_limited_entity e 0 w t0) e
    { bucket := 0, bucket_init := t0, bucket_max := 0, refresh_rate := w }
    (by simp [Limiter.add_limited_entity]) rfl rfl

/-- Helper: `add_limited_entity` preserves the bucket-capacity invariant. -/
theorem inv_add [DecidableEq K] (l : Limiter K) (e : K) (c w t : Nat)
    (h : LimiterInv l) : LimiterInv (l.add_limited_entity e c w t) := by
  intro k entry hk
  unfold Limiter.add_limited_entity at hk
  by_cases hke : k = e
  · rw [if_pos hke] at hk
    injection hk with h1
    subst h1
    exact Nat.le_refl c
  · rw [if_neg hke] at hk
    exact h k entry hk

/-- Helper: `remove_limited_entity` preserves the bucket-capacity
invariant. -/
theorem inv_remove [DecidableEq K] (l : Limiter K) (e : K)
    (h : LimiterInv l) : LimiterInv (l.remove_limited_entity e).2 := by
  intro k entry hk
  have hk' : (if k = e then none else l k) = some entry := hk
  by_cases hke : k = e
  · rw [if_pos hke] at hk'
    cases hk'
  · rw [if_neg hke] at hk'
    exact h k entry hk'

/-- Helper: `is_entity_limited` preserves the bucket-capacity invariant,
including across a window boundary. -/
theorem inv_check [DecidableEq K] (l : Limiter K) (e : K) (t : Nat)
    (h : LimiterInv l) : LimiterInv (l.is_entity_limited e t).2 := by
  intro k entry hk
  by_cases hke : k = e
  · subst hke
    cases he : l k with
    | none =>
      rw [check_absent l k t he] at hk
      have hk' : l k = some entry := hk
      rw [he] at hk'
      cases hk'
    | some entry0 =>
      rw [check_apply_self l k t entry0 he] at hk
      injection hk with h1
      subst h1
      have hmax : (refillStep entry0 t).bucket ≤
          (refillStep entry0 t).bucket_max := by
        unfold refillStep
        split
        · exact Nat.le_refl _
        · exact h k entry0 he
      show (refillStep entry0 t).bucket - 1 ≤
        (refillStep entry0 t).bucket_max
      omega
  · rw [check_apply_ne l e k t hke] at hk
    exact h k entry hk

/-- **C4.** Every limiter state reachable through the public API
(register, check-and-consume, unregister; `get_bucket_remaining` reads
without mutating) satisfies `0 ≤ remaining ≤ capacity` for every
registered entity, including across window-boundary refills. -/
theorem reachable_invariant [DecidableEq K] (l : Limiter K)
    (h : Reachable l) :
    ∀ k entry, l k = some entry →
      0 ≤ entry.bucket ∧ entry.bucket ≤ entry.bucket_max := by
  have hinv : LimiterInv l := by
    induction h with
    | new =>
      intro k entry hk
      exact Option.noConfusion hk
    | add l0 e c w t _ ih => exact inv_add l0 e c w t ih
    | remove l0 e _ ih => exact inv_remove l0 e ih
    | check l0 e t _ ih => exact inv_check l0 e t ih
  intro k entry hk
  exact ⟨Nat.zero_le _, hinv k entry hk⟩

/-- Witness for C4: the state reached by registering key `0` (capacity 2,
window 5, at time 0) and consuming once at time 1 stores the bucket
`⟨1, 0, 2, 5⟩`, which satisfies the invariant. -/
theorem reachable_invariant_witness :
    0 ≤ ({ bucket := 1, bucket_init := 0, bucket_max := 2,
           refresh_rate := 5 } : AssociatedEntity).bucket ∧
    ({ bucket := 1, bucket_init := 0, bucket_max := 2,
       refresh_rate := 5 } : AssociatedEntity).bucket ≤
      ({ bucket := 1, bucket_init := 0, bucket_max := 2,
         refresh_rate := 5 } : AssociatedEntity).bucket_max :=
  reachable_invariant
    (((Limiter.new Nat).add_limited_entity 0 2 5 0).is_entity_limited
      0 1).2
    (Reachable.check _ 0 1 (Reachable.add _ 0 2 5 0 Reachable.new))
    0 _ rfl

/-- Helper: over any sequence of calls on one key whose times all fall
strictly inside the current window, the number of `Allowed` decisions is
bounded by the bucket count at the start of the sequence. -/
theorem runCalls_count_le [DecidableEq K] (ts : List Nat) :
    ∀ (l : Limiter K) (e : K) (entry : AssociatedEntity),
      l e = some entry →
      (∀ t ∈ ts, t - entry.bucket_init < entry.refresh_rate) →
      (l.runCalls e ts).1.count (some true) ≤ entry.bucket := by
  induction ts with
  | nil =>
    intro l e entry _ _
    exact Nat.zero_le _
  | cons t ts ih =>
    intro l e entry h hts
    have hno : ¬ entry.refresh_rate ≤ t - entry.bucket_init := by
      have := hts t (List.mem_cons_self t ts)
      omega
    have hrs : refillStep entry t = entry := by
      unfold refillStep
      rw [if_neg hno]
    have htail : ∀ t' ∈ ts, t' - entry.bucket_init < entry.refresh_rate :=
      fun t' ht' => hts t' (List.mem_cons_of_mem t ht')
    show ((l.is_entity_limited e t).1 ::
        ((l.is_entity_limited e t).2.runCalls e ts).1).count (some true) ≤
      entry.bucket
    by_cases hpos : 0 < entry.bucket
    · have hfst : (l.is_entity_limited e t).1 = some true := by
        rw [check_fst l e t entry h, hrs]
        simp [hpos]
      have hsnd : (l.is_entity_limited e t).2 e =
          some { entry with bucket := entry.bucket - 1 } := by
        rw [check_apply_self l e t entry h, hrs]
      have hrec :
          ((l.is_entity_limited e t).2.runCalls e ts).1.count (some true) ≤
            entry.bucket - 1 :=
        ih (l.is_entity_limited e t).2 e
          { entry with bucket := entry.bucket - 1 } hsnd htail
      rw [List.count_cons, hfst]
      simp
      omega
    · have hb0 : entry.bucket = 0 := Nat.eq_zero_of_not_pos hpos
      have hfst : (l.is_entity_limited e t).1 = some false := by
        rw [check_fst l e t entry h, hrs, hb0]
        rfl
      have hsnd : (l.is_entity_limited e t).2 e = some entry := by
        rw [check_apply_self l e t entry h, hrs,
            bucket_sub_one_eq_self entry hb0]
      have hrec := ih (l.is_entity_limited e t).2 e entry hsnd htail
      rw [List.count_cons, hfst]
      simp
      omega

/-- **C2.** For an entity registered with capacity `c` and window `w` at
time `t0`, any sequence of `is_entity_limited` calls on that key whose
times all lie strictly within the window started at registration (so no
refill intervenes) yields at most `c` `Allowed` decisions. -/
theorem capacity_bound [DecidableEq K] (l : Limiter K) (e : K)
    (c w t0 : Nat) (ts : List Nat)
    (hw : ∀ t ∈ ts, t - t0 < w) :
    ((l.add_limited_entity e c w t0).runCalls e ts).1.count (some true)
      ≤ c :=
  runCalls_count_le ts (l.add_limited_entity e c w t0) e
    { bucket := c, bucket_init := t0, bucket_max := c, refresh_rate := w }
    (by simp [Limiter.add_limited_entity]) hw

/-- Witness for C2: key `0` registered at time 0 with capacity 2 and
window 10; three calls at times 1, 2, 3 (all inside the window) produce
at most 2 `Allowed` decisions. -/
theorem capacity_bound_witness :
    (∀ t ∈ ([1, 2, 3] : List Nat), t - 0 < 10) ∧
    (((Limiter.new Nat).add_limited_entity 0 2 10 0).runCalls 0
        [1, 2, 3]).1.count (some true) ≤ 2 :=
  ⟨by decide,
   capacity_bound (Limiter.new Nat) 0 2 10 0 [1, 2, 3] (by decide)⟩
